import Mathlib

/-!
# PaperTrail — verification of the journaling core

Shallow embedding of the PaperTrail journaling application.  The repository
under verification ships the React frontend (`src/components/*.jsx`,
`src/api/journalApi.js`, `src/utils/dateUtils.js`); the Flask backend
(`backend/app.py`, `backend/streak/streak.py`) holds the Entry Store, the
Streak Calculator and the Trend Aggregator and is not part of the sources, so
those components are modelled from the specification (each such definition
carries a doc comment starting with `Modelled from the spec:`).  Frontend
logic (date handling, entry loading, mode selection, month insights,
input gating) is translated directly from the JSX sources.
-/

namespace PaperTrail

/-- Role of a conversation turn (`{role: user|ai}`). -/
inductive Role where
  | user
  | ai
deriving DecidableEq, Repr

/-- One conversation turn `{role, content}`. -/
structure Turn where
  role : Role
  content : String
deriving DecidableEq, Repr

/-- Entry mode: venting or conversation. -/
inductive Mode where
  | venting
  | conversation
deriving DecidableEq, Repr

/-- Sentiment label assigned by the external Classifier. -/
inductive Sentiment where
  | positive
  | neutral
  | negative
deriving DecidableEq, Repr

/-! ## String and calendar-date utilities

The frontend compares ISO `YYYY-MM-DD` strings with JavaScript `<`/`>`,
which compares UTF-16 code units lexicographically; `charsLt` reproduces
that comparison on the underlying character lists. -/

/-- Lexicographic comparison of character lists, as JavaScript compares
strings (code-unit by code-unit; a proper prefix is smaller). -/
def charsLt : List Char → List Char → Bool
  | [], [] => false
  | [], _ :: _ => true
  | _ :: _, [] => false
  | a :: as, b :: bs =>
    if a < b then true
    else if b < a then false
    else charsLt as bs

/-- JavaScript string `a < b`. -/
def jsLt (a b : String) : Bool :=
  charsLt a.data b.data

/-- Digit character for `n` with `0 ≤ n ≤ 9`. -/
def digitChar (n : ℤ) : Char :=
  Char.ofNat (48 + n.toNat)

/-- Two-digit zero-padded rendering of `0 ≤ n < 100`. -/
def pad2 (n : ℤ) : String :=
  String.mk [digitChar (n.fdiv 10), digitChar (n.emod 10)]

/-- Four-digit zero-padded rendering of `0 ≤ n < 10000`. -/
def pad4 (n : ℤ) : String :=
  String.mk [digitChar ((n.fdiv 1000).emod 10), digitChar ((n.fdiv 100).emod 10),
             digitChar ((n.fdiv 10).emod 10), digitChar (n.emod 10)]

/-- Convert a day count since the Unix epoch (1970-01-01) to the civil
`(year, month, day)` triple of the proleptic Gregorian calendar
(standard `civil_from_days` algorithm). -/
def civilFromDays (day : ℤ) : ℤ × ℤ × ℤ :=
  let z := day + 719468
  let era := z.fdiv 146097
  let doe := z - era * 146097
  let yoe := (doe - doe.fdiv 1460 + doe.fdiv 36524 - doe.fdiv 146096).fdiv 365
  let y := yoe + era * 400
  let doy := doe - (365 * yoe + yoe.fdiv 4 - yoe.fdiv 100)
  let mp := (5 * doy + 2).fdiv 153
  let d := doy - (153 * mp + 2).fdiv 5 + 1
  let m := mp + (if mp < 10 then 3 else -9)
  (if m ≤ 2 then y + 1 else y, m, d)

/-- Render an epoch day count as an ISO `YYYY-MM-DD` string. -/
def isoOfDay (day : ℤ) : String :=
  let c := civilFromDays day
  pad4 c.1 ++ "-" ++ pad2 c.2.1 ++ "-" ++ pad2 c.2.2

/-- The calendar date string produced by
`new Date(ms).toISOString().split("T")[0]` — the **UTC** civil day of the
instant `ms` (milliseconds since the Unix epoch).  Embeds the `today` /
default-date computation of the Journal page (`part_002`, lines 10 and 34). -/
def jsToISODateString (ms : ℤ) : String :=
  isoOfDay (ms.fdiv 86400000)

/-- `getPacificDateString` of `src/utils/dateUtils.js`: today's `YYYY-MM-DD`
in the `America/Los_Angeles` civil calendar via `Intl.DateTimeFormat`.
The timezone database lookup is modelled for instants falling in Pacific
Daylight Time (UTC−7, offset 25 200 000 ms), which covers every instant
this development evaluates the function at. -/
def getPacificDateString (ms : ℤ) : String :=
  isoOfDay ((ms - 25200000).fdiv 86400000)

/-- Number of days in a month of the proleptic Gregorian calendar. -/
def daysInMonth (y m : ℕ) : ℕ :=
  if m = 2 then
    if y % 4 = 0 ∧ (y % 100 ≠ 0 ∨ y % 400 = 0) then 29 else 28
  else if m = 4 ∨ m = 6 ∨ m = 9 ∨ m = 11 then 30
  else 31

/-- Parse the year and month of an ISO `YYYY-MM-DD` string (digits in the
expected positions, dashes in positions 4 and 7); `none` on any malformed
input.  Used for the month bucketing of `getMonthInsights`
(`Calendar.jsx`, lines 92-96), where `new Date(s + "T00:00:00")` yields the
civil year/month of a valid ISO string and an invalid date otherwise. -/
def parseYMD (s : String) : Option (ℕ × ℕ × ℕ) :=
  match s.data with
  | [y1, y2, y3, y4, '-', m1, m2, '-', d1, d2] =>
    if y1.isDigit ∧ y2.isDigit ∧ y3.isDigit ∧ y4.isDigit ∧
       m1.isDigit ∧ m2.isDigit ∧ d1.isDigit ∧ d2.isDigit then
      some (((y1.toNat - 48) * 1000 + (y2.toNat - 48) * 100 +
             (y3.toNat - 48) * 10 + (y4.toNat - 48)),
            ((m1.toNat - 48) * 10 + (m2.toNat - 48)),
            ((d1.toNat - 48) * 10 + (d2.toNat - 48)))
    else none
  | _ => none

/-- Modelled from the spec: syntactic validity of a `date` payload — an ISO
`YYYY-MM-DD` string denoting an existing Gregorian calendar date.  The
backend's date validation (`backend/app.py`, not under `src/`) is missing
from the sources. -/
def isValidIsoDate (s : String) : Bool :=
  match parseYMD s with
  | some (y, m, d) => decide (1 ≤ m ∧ m ≤ 12 ∧ 1 ≤ d ∧ d ≤ daysInMonth y m)
  | none => false

/-! ## Entry Store (modelled from the spec)

The Entry Store lives in `backend/app.py`, which is not under `src/`; only
its caller `src/api/journalApi.js` is.  The store is modelled from §4.1 of
the spec: a collection of records keyed by `(date, mode)`. -/

/-- A stored journal record.  Uniquely identified by `(date, mode)`. -/
structure StoredEntry where
  date : String
  mode : Mode
  text : Option String
  conversation : List Turn
deriving DecidableEq, Repr

/-- The persisted entry collection. -/
abbrev Store := List StoredEntry

/-- Errors of the Entry Store (spec §7 taxonomy, restricted to the two
variants the claims mention). -/
inductive StoreError where
  | validationError
  | notFoundError
deriving DecidableEq, Repr

/-- Does any entry (of either mode) exist for `date`? -/
def hasEntryForDate (store : Store) (date : String) : Bool :=
  store.any (fun e => e.date == date)

/-- Does an entry exist for the exact `(date, mode)` key? -/
def hasEntryForKey (store : Store) (date : String) (mode : Mode) : Bool :=
  store.any (fun e => e.date == date && e.mode == mode)

/-- Payload of a write: the submitted venting text, or the new conversation
turns (user turn plus the Generator's ai reply). -/
inductive Payload where
  | ventingText (text : String)
  | turns (ts : List Turn)
deriving DecidableEq, Repr

/-- Apply a payload to an existing record: venting text is replaced
wholesale, conversation turns are appended. -/
def applyPayload (e : StoredEntry) (p : Payload) : StoredEntry :=
  match p with
  | .ventingText t => { e with text := some t }
  | .turns ts => { e with conversation := e.conversation ++ ts }

/-- A fresh record created by the first write for a `(date, mode)`. -/
def freshEntry (date : String) (mode : Mode) (p : Payload) : StoredEntry :=
  match p with
  | .ventingText t => ⟨date, mode, some t, []⟩
  | .turns ts => ⟨date, mode, none, ts⟩

/-- Is the payload an empty venting text?  Spec §3 requires venting `text`
to be non-empty and §7 lists "empty venting text" under
`ValidationError`. -/
def emptyVentingText (p : Payload) : Bool :=
  match p with
  | .ventingText t => t == ""
  | .turns _ => false

/-- Modelled from the spec: `upsert(date, mode, payload)` of the Entry Store
(§4.1 and §7, `backend/app.py` not under `src/`).  Fails with
`ValidationError` if `date` is syntactically invalid, if `date` is in the
future relative to the Pacific `today` while no entry of either mode
already exists for that date, or if the payload is an empty venting text;
otherwise it mutates the record in place (venting text replaced,
conversation turns appended) or creates it. -/
def upsert (store : Store) (today : String) (date : String) (mode : Mode)
    (p : Payload) : Except StoreError Store :=
  if ¬ isValidIsoDate date then .error .validationError
  else if jsLt today date ∧ ¬ hasEntryForDate store date then
    .error .validationError
  else if emptyVentingText p then .error .validationError
  else if hasEntryForKey store date mode then
    .ok (store.map (fun e => if e.date == date && e.mode == mode then
      applyPayload e p else e))
  else
    .ok (store ++ [freshEntry date mode p])

/-- `get(date)` of the Entry Store: every entry stored for `date`
(spec §4.1). -/
def storeGet (store : Store) (date : String) : List StoredEntry :=
  store.filter (fun e => e.date == date)

/-- Modelled from the spec: `delete(date, mode=None)` of the Entry Store
(§4.1, `backend/app.py` not under `src/`).  Removes the entries of `date`,
scoped to `mode` when one is given; fails with `NotFoundError` when nothing
matches.  The frontend caller is `deleteEntry` of `src/api/journalApi.js`
(lines 37-48), which sends the optional `mode` query parameter. -/
def storeDelete (store : Store) (date : String) (mode : Option Mode) :
    Except StoreError Store :=
  let matches_ : StoredEntry → Bool := fun e =>
    e.date == date && (match mode with | none => true | some m => e.mode == m)
  if store.any matches_ then
    .ok (store.filter (fun e => !(matches_ e)))
  else
    .error .notFoundError

/-! ## Streak Calculator (modelled from the spec)

`backend/streak/streak.py` is not under `src/`; only its display widget
`src/components/StreakBadge.jsx` is.  The calculator is modelled from §4.2
of the spec.  The input "set of distinct dates (Pacific calendar) that have
at least one entry" is represented by its strictly ascending list of day
numbers (the result of the spec's "sort dates ascending" step); dates are
day counts in the Pacific civil calendar. -/

/-- Walk of the sorted date list accumulating consecutive-day run lengths:
`prev` is the previously seen date, `len` the length of the run it ends.
A run breaks whenever the gap to the next date exceeds one day.  -/
def runsGo (prev : ℤ) (len : ℕ) : List ℤ → List ℕ
  | [] => [len]
  | d :: rest =>
    if d = prev + 1 then runsGo d (len + 1) rest
    else len :: runsGo d 1 rest

/-- Lengths of the maximal consecutive-day runs of an ascending date list,
in order. -/
def runLengths : List ℤ → List ℕ
  | [] => []
  | d :: rest => runsGo d 1 rest

/-- The length of the final run produced by the walk (the run ending at the
most recent date). -/
def lastRunLen (prev : ℤ) (len : ℕ) : List ℤ → ℕ
  | [] => len
  | d :: rest =>
    if d = prev + 1 then lastRunLen d (len + 1) rest
    else lastRunLen d 1 rest

/-- The streak statistics returned by the streak query (spec §3
**StreakState**: every field but `milestone` is derived). -/
structure StreakStats where
  current_streak : ℕ
  longest_streak : ℕ
  total_days : ℕ
  has_entry_today : Bool
  milestone_progress : Option ℚ
  days_remaining : Option ℕ
deriving DecidableEq, Repr

/-- Modelled from the spec: the Streak Calculator (§4.2,
`backend/streak/streak.py` not under `src/`).  `dates` is the strictly
ascending list of distinct Pacific dates having at least one entry,
`today` the Pacific today, `milestone` the optional configured milestone.
`longest_streak` is the longest consecutive-day run, `current_streak` the
run ending at the most recent date when that date is today or yesterday
(one-day grace period) and `0` otherwise, `total_days` the number of
distinct dates; `milestone_progress = min(current/milestone*100, 100)` and
`days_remaining = max(milestone - current, 0)` when a milestone is set,
both null otherwise. -/
def streakQuery (dates : List ℤ) (today : ℤ) (milestone : Option ℕ) :
    StreakStats :=
  let runs := runLengths dates
  let longest := runs.foldr max 0
  let current : ℕ :=
    match dates.getLast? with
    | none => 0
    | some m =>
      if m = today ∨ m = today - 1 then (runs.getLast?).getD 0 else 0
  { current_streak := current
    longest_streak := longest
    total_days := dates.length
    has_entry_today := dates.any (fun d => d == today)
    milestone_progress :=
      milestone.map (fun ms => min ((current : ℚ) / (ms : ℚ) * 100) 100)
    days_remaining := milestone.map (fun ms => ms - current) }

/-! ## Trend Aggregator (modelled from the spec)

The Trend Aggregator lives in `backend/app.py` (not under `src/`); the
frontend `Insights` component only renders its buckets.  Modelled from
§4.3 of the spec, generically in the bucket-key type: daily keys are
calendar dates, weekly keys ISO `YYYY-Www` strings, monthly keys `YYYY-MM`
strings.  An entry is reduced to its bucket key and optional sentiment,
the only attributes the aggregation reads. -/

/-- Numeric sentiment value: positive ↦ +1, neutral ↦ 0, negative ↦ −1,
and a missing sentiment counts as neutral, i.e. 0. -/
def sentimentScore : Option Sentiment → ℤ
  | some .positive => 1
  | some .negative => -1
  | _ => 0

/-- One bucket of a trend query. -/
structure TrendBucket (κ : Type) where
  key : κ
  total : ℕ
  averageSentiment : ℚ
deriving DecidableEq, Repr

/-- Modelled from the spec: the Trend Aggregator's bucketing (§4.3,
`backend/app.py` not under `src/`).  `units` enumerates every period unit
of the queried range; one bucket is emitted per unit even when it holds no
entries.  `total` counts the bucket's entries (entries with missing
sentiment included); `averageSentiment` is the mean of the sentiment
scores, `0` when `total` is `0`. -/
def trendBuckets {κ : Type} [DecidableEq κ] (units : List κ)
    (entries : List (κ × Option Sentiment)) : List (TrendBucket κ) :=
  units.map (fun u =>
    let es := entries.filter (fun e => e.1 = u)
    { key := u
      total := es.length
      averageSentiment :=
        if es.length = 0 then 0
        else ((es.map (fun e => (sentimentScore e.2 : ℚ))).sum) / es.length })

/-! ## Conversation State Tracker (modelled from the spec)

The turn-appending write path runs in `backend/app.py` (not under `src/`):
a submitted user message appends a user turn and the Generator's reply is
appended as exactly one ai turn in the same operation.  The Generator is
opaque, so its reply text is a parameter. -/

/-- Modelled from the spec: a successful conversation-mode submission
(§4.4, `backend/app.py` not under `src/`).  Appends the user turn followed
by exactly one ai turn holding the Generator's reply. -/
def submitConversationTurn (turns : List Turn) (msg reply : String) :
    List Turn :=
  turns ++ [⟨.user, msg⟩, ⟨.ai, reply⟩]

/-- The input-area gating of `JournalCard.jsx` (lines 382-384): the text
input renders in venting mode always, and in conversation mode only when
the thread is empty or its last turn is an ai turn. -/
def showInputArea (mode : Mode) (conversation : List Turn) : Bool :=
  match mode with
  | .venting => true
  | .conversation =>
    conversation.isEmpty ||
      (match conversation.getLast? with
       | some t => t.role == .ai
       | none => false)

/-! ## Calendar month insights (`src/components/Calendar.jsx`)

`getMonthInsights` (lines 91-134) aggregates the year's entries of one
month: it tallies themes and sentiments and picks a dominant sentiment.
An entry as the calendar receives it from `GET /entries`. -/

/-- An entry as consumed by the calendar: the aggregation reads only
`date`, `sentiment` and `themes`. -/
structure CalEntry where
  date : Option String
  sentiment : Option Sentiment
  themes : Option (List String)
deriving DecidableEq, Repr

/-- The per-entry month test of `getMonthInsights` (lines 92-96): the
entry's `date` parses to the given 0-based `monthIndex` of `currentYear`
(`new Date(entry.date + "T00:00:00")` yields that civil month for a valid
ISO string and an invalid date, matching nothing, otherwise). -/
def inMonth (e : CalEntry) (monthIndex currentYear : ℕ) : Bool :=
  match e.date with
  | none => false
  | some s =>
    match parseYMD s with
    | some (y, m, _) => m - 1 == monthIndex && y == currentYear
    | none => false

/-- The filter of `getMonthInsights` (lines 92-96): the year's entries
falling in the given month. -/
def monthEntries (entries : List CalEntry) (monthIndex currentYear : ℕ) :
    List CalEntry :=
  entries.filter (fun e => inMonth e monthIndex currentYear)

/-- The sentiment tally of `getMonthInsights` (lines 102-116): an entry is
counted only when its `sentiment` attribute is present
(`if (entry.sentiment) sentimentCounts[entry.sentiment]++`). -/
def sentimentCounts (es : List CalEntry) (s : Sentiment) : ℕ :=
  (es.filter (fun e => e.sentiment == some s)).length

/-- The theme tally of `getMonthInsights` (lines 101-110): occurrences of
`theme` across the entries' `themes` arrays. -/
def themeCount (es : List CalEntry) (theme : String) : ℕ :=
  (es.map (fun e => ((e.themes.getD []).filter (fun t => t == theme)).length)).sum

/-- The dominant sentiment of `getMonthInsights` (lines 125-127). -/
def dominantSentiment (es : List CalEntry) : Sentiment :=
  if sentimentCounts es .positive ≥ sentimentCounts es .negative ∧
     sentimentCounts es .positive ≥ sentimentCounts es .neutral then .positive
  else if sentimentCounts es .negative ≥ sentimentCounts es .neutral then .negative
  else .neutral

/-- The month sentiment `getMonthInsights` reports: the early return of
line 98 yields `neutral` when the month has no entries
(`monthEntries.length === 0`), otherwise the dominant tally of
lines 125-127. -/
def getMonthInsightsSentiment (entries : List CalEntry)
    (monthIndex currentYear : ℕ) : Sentiment :=
  if (monthEntries entries monthIndex currentYear).length = 0 then .neutral
  else dominantSentiment (monthEntries entries monthIndex currentYear)

/-! ## Journal page (`src/unnamed/part_002`)

The Journal component: default selected date, future-date gating of
submissions, and the entry-loading mode selection. -/

/-- The Journal page's selected date (line 10):
`searchParams.get("date") || new Date().toISOString().split("T")[0]` —
the `?date` query parameter, defaulting to the **UTC** civil day of the
current instant. -/
def selectedDateDefault (dateParam : Option String) (nowMs : ℤ) : String :=
  dateParam.getD (jsToISODateString nowMs)

/-- `isFutureDate` of the Journal page (lines 34-35): the selected date
compared, as a JavaScript string, against
`new Date().toISOString().split("T")[0]` — the **UTC** today. -/
def isFutureDate (selectedDate today : String) : Bool :=
  jsLt today selectedDate

/-- The submission gate of `handleSubmit` (lines 143-155): a submission is
blocked (alert, no request) when the trimmed entry is empty, or when the
selected date is strictly after the UTC today and no entry already exists
for that date. -/
def handleSubmitBlocked (entryTrimmed : String) (selectedDate today : String)
    (hasExistingEntry : Bool) : Bool :=
  entryTrimmed == "" || (isFutureDate selectedDate today && !hasExistingEntry)

/-- An entry object as the Journal page receives it from
`GET /entries?date=...&mode=...`; `none` models the empty object `{}`
returned when nothing is stored (`Object.keys(data).length > 0` fails). -/
structure EntryJson where
  mode : Option String
  text : Option String
  conversation : Option (List Turn)
  goal : Option String
deriving DecidableEq, Repr

/-- `hasValidConversation` of `loadEntry` (lines 46-49): the response is a
non-empty object with `mode === "conversation"` and a truthy
`conversation` field (an array is truthy even when empty). -/
def hasValidConversationResp (r : Option EntryJson) : Bool :=
  match r with
  | some e => e.mode == some "conversation" && e.conversation.isSome
  | none => false

/-- `hasValidVenting` of `loadEntry` (lines 52-55): the response is a
non-empty object with `mode === "venting"` and a truthy (non-empty)
`text` field. -/
def hasValidVentingResp (r : Option EntryJson) : Bool :=
  match r with
  | some e => e.mode == some "venting" &&
      (match e.text with | some t => !(t == "") | none => false)
  | none => false

/-- The page state produced by `loadEntry`: which entry is held, the
active mode, the venting text, the conversation thread and the goal. -/
structure JournalState where
  existingEntry : Option EntryJson
  mode : String
  entryText : String
  conversation : List Turn
  goal : Option String
deriving DecidableEq, Repr

/-- JavaScript `data.goal || null`: an absent or empty goal becomes null. -/
def jsGoalOrNull (g : Option String) : Option String :=
  match g with
  | some s => if s == "" then none else some s
  | none => none

/-- `isValidEntry` of `loadEntry` (lines 65-68): the selected data has a
mode and either a truthy conversation array or a truthy text
(`Array.isArray` always holds for a present array in this model). -/
def isValidEntryJson (data : Option EntryJson) : Bool :=
  match data with
  | some e =>
    (e.mode == some "conversation" && e.conversation.isSome) ||
      (e.mode == some "venting" &&
        (match e.text with | some t => !(t == "") | none => false))
  | none => false

/-- The cleared page state (lines 94-102): no entry found, default to
venting mode. -/
def clearedState : JournalState :=
  { existingEntry := none, mode := "venting", entryText := "",
    conversation := [], goal := none }

/-- `loadEntry` of the Journal page (lines 40-103): fetches the
conversation and venting entries of the selected date and picks what to
display — the conversation entry when valid, else the venting entry when
valid, else a cleared venting default. -/
def loadEntry (conversationData ventingData : Option EntryJson) :
    JournalState :=
  let data : Option EntryJson :=
    if hasValidConversationResp conversationData then conversationData
    else if hasValidVentingResp ventingData then ventingData
    else none
  if isValidEntryJson data then
    match data with
    | some e =>
      if e.mode == some "conversation" && e.conversation.isSome then
        { existingEntry := some e, mode := "conversation", entryText := "",
          conversation := e.conversation.getD [], goal := jsGoalOrNull e.goal }
      else if e.mode == some "venting" &&
          (match e.text with | some t => !(t == "") | none => false) then
        { existingEntry := some e, mode := "venting",
          entryText := e.text.getD "", conversation := [], goal := none }
      else
        { existingEntry := some e, mode := "venting",
          entryText := e.text.getD "", conversation := [], goal := none }
    | none => clearedState
  else clearedState

/-! ## Theorems for the claims -/

/-- C6: for every trend query over a date range, one bucket is emitted per
period unit in the range even when the bucket contains zero entries, and
every empty bucket has `total = 0` and `averageSentiment = 0`. -/
theorem trend_bucket_completeness {κ : Type} [DecidableEq κ]
    (units : List κ) (entries : List (κ × Option Sentiment)) :
    (trendBuckets units entries).map TrendBucket.key = units ∧
    ∀ b ∈ trendBuckets units entries,
      entries.filter (fun e => e.1 = b.key) = [] →
        b.total = 0 ∧ b.averageSentiment = 0 := by
  constructor
  · simp only [trendBuckets, List.map_map]
    calc List.map _ units = List.map id units :=
          List.map_congr_left (fun u _ => rfl)
      _ = units := List.map_id units
  · intro b hb hempty
    simp only [trendBuckets, List.mem_map] at hb
    obtain ⟨u, _, rfl⟩ := hb
    simp only at hempty
    simp [hempty]

/-- C6 witness: a one-week range with no entries yields exactly its one
bucket, empty, with zero total and zero average. -/
theorem trend_bucket_completeness_witness :
    (⟨"2024-W23", 0, 0⟩ : TrendBucket String).total = 0 ∧
    (⟨"2024-W23", 0, 0⟩ : TrendBucket String).averageSentiment = 0 :=
  (trend_bucket_completeness ["2024-W23"]
      ([] : List (String × Option Sentiment))).2
    ⟨"2024-W23", 0, 0⟩ (by simp [trendBuckets]) (by simp)

/-- C7: a successful conversation submission appends exactly one user turn
followed by exactly one ai turn, in one operation: the previous turns are
preserved unchanged as the front of the sequence, the length grows by
exactly two, the thread ends on the ai turn, and the Journal input area
renders again (state `awaiting_user`). -/
theorem conversation_submission_appends (turns : List Turn)
    (msg reply : String) :
    submitConversationTurn turns msg reply =
      turns ++ [⟨.user, msg⟩, ⟨.ai, reply⟩] ∧
    (submitConversationTurn turns msg reply).take turns.length = turns ∧
    (submitConversationTurn turns msg reply).length = turns.length + 2 ∧
    (submitConversationTurn turns msg reply).getLast? =
      some ⟨.ai, reply⟩ ∧
    showInputArea .conversation (submitConversationTurn turns msg reply) =
      true := by
  refine ⟨rfl, List.take_left turns _, by simp [submitConversationTurn], ?_, ?_⟩
  · have h : submitConversationTurn turns msg reply =
        (turns ++ [⟨.user, msg⟩]) ++ [⟨.ai, reply⟩] := by
      simp [submitConversationTurn]
    rw [h, List.getLast?_concat]
  · have h : (submitConversationTurn turns msg reply).getLast? =
        some ⟨.ai, reply⟩ := by
      have h : submitConversationTurn turns msg reply =
          (turns ++ [⟨.user, msg⟩]) ++ [⟨.ai, reply⟩] := by
        simp [submitConversationTurn]
      rw [h, List.getLast?_concat]
    simp [showInputArea, h]

/-- C9: the Journal page derives "today" from
`new Date().toISOString()`, the UTC calendar — not the Pacific calendar.
At the instant 2024-06-02T01:00:00Z (18:00 PDT on June 1) the page
defaults to 2024-06-02 although the Pacific today is 2024-06-01, and its
future-date check accepts 2024-06-02, a date strictly after the Pacific
today. -/
theorem journal_today_utc_divergence :
    selectedDateDefault none 1717290000000 = "2024-06-02" ∧
    getPacificDateString 1717290000000 = "2024-06-01" ∧
    isFutureDate "2024-06-02" (jsToISODateString 1717290000000) = false ∧
    jsLt (getPacificDateString 1717290000000) "2024-06-02" = true := by
  refine ⟨by decide, by decide, by decide, by decide⟩

/-- C10: when the selected date has a valid conversation entry (mode
`conversation` with a turn array), `loadEntry` displays it — its mode,
turns and goal — regardless of the venting response; the venting entry is
shown only when no valid conversation entry exists. -/
theorem load_entry_prefers_conversation (conv vent : Option EntryJson) :
    (∀ e : EntryJson, ∀ ts : List Turn, conv = some e →
      e.mode = some "conversation" → e.conversation = some ts →
      loadEntry conv vent =
        { existingEntry := some e, mode := "conversation", entryText := "",
          conversation := ts, goal := jsGoalOrNull e.goal }) ∧
    (hasValidConversationResp conv = false →
      ∀ e : EntryJson, vent = some e → hasValidVentingResp vent = true →
        loadEntry conv vent =
          { existingEntry := some e, mode := "venting",
            entryText := e.text.getD "", conversation := [], goal := none }) := by
  constructor
  · rintro e ts rfl hmode hconv
    have hvalid : hasValidConversationResp (some e) = true := by
      simp [hasValidConversationResp, hmode, hconv]
    simp [loadEntry, hvalid, isValidEntryJson, hmode, hconv]
  · rintro hc e rfl hv
    have hmode : e.mode = some "venting" := by
      by_contra h
      simp [hasValidVentingResp, h] at hv
    have htext : (match e.text with
        | some t => !(t == "") | none => false) = true := by
      simpa [hasValidVentingResp, hmode] using hv
    have hnotconv : ¬ (e.mode == some "conversation" &&
        e.conversation.isSome) = true := by
      simp [hmode]
    simp [loadEntry, hc, hv, isValidEntryJson, hmode, htext]

/-- C10 witness: a date holding both a valid conversation entry and a
valid venting entry loads in conversation mode with the conversation's
turns and goal. -/
theorem load_entry_prefers_conversation_witness :
    loadEntry
        (some ⟨some "conversation", none, some [⟨.user, "hi"⟩, ⟨.ai, "hey"⟩],
          some "breathe"⟩)
        (some ⟨some "venting", some "long day", none, none⟩) =
      { existingEntry := some ⟨some "conversation", none,
          some [⟨.user, "hi"⟩, ⟨.ai, "hey"⟩], some "breathe"⟩,
        mode := "conversation", entryText := "",
        conversation := [⟨.user, "hi"⟩, ⟨.ai, "hey"⟩],
        goal := jsGoalOrNull (some "breathe") } :=
  (load_entry_prefers_conversation
      (some ⟨some "conversation", none, some [⟨.user, "hi"⟩, ⟨.ai, "hey"⟩],
        some "breathe"⟩)
      (some ⟨some "venting", some "long day", none, none⟩)).1
    _ _ rfl rfl rfl

/-- C1: an entry write fails with `ValidationError` exactly when the date
is syntactically invalid, when it is strictly after the Pacific today
while no entry of either mode exists for that date, or when the payload is
an empty venting text; when any entry already exists for the date, a
non-empty write is permitted even for a future date. -/
theorem upsert_future_validation (store : Store) (today date : String)
    (mode : Mode) (p : Payload) :
    (upsert store today date mode p = .error .validationError ↔
      (isValidIsoDate date = false ∨
        (jsLt today date = true ∧ hasEntryForDate store date = false) ∨
        emptyVentingText p = true)) ∧
    (hasEntryForDate store date = true → isValidIsoDate date = true →
      emptyVentingText p = false →
      ∃ s', upsert store today date mode p = .ok s') := by
  constructor
  · unfold upsert
    split_ifs with h1 h2 h3 h4 <;> simp_all
  · intro hd hv hp
    unfold upsert
    rw [if_neg (by simp [hv]), if_neg (by simp [hd]), if_neg (by simp [hp])]
    split_ifs <;> exact ⟨_, rfl⟩

/-- C1 witness: an entry already exists for 2024-06-02, so a (non-empty)
write for that date is permitted even though it is in the future relative
to the Pacific today 2024-06-01. -/
theorem upsert_future_validation_witness :
    ∃ s', upsert [⟨"2024-06-02", .venting, some "hi", []⟩] "2024-06-01"
        "2024-06-02" .conversation (.turns [⟨.user, "x"⟩, ⟨.ai, "y"⟩]) =
      .ok s' :=
  (upsert_future_validation [⟨"2024-06-02", .venting, some "hi", []⟩]
      "2024-06-01" "2024-06-02" .conversation
      (.turns [⟨.user, "x"⟩, ⟨.ai, "y"⟩])).2 (by decide) (by decide)
    (by decide)

/-- C8: deleting with `mode = venting` removes exactly the venting entries
of the date, so a subsequent `get(date)` returns only the conversation
entries; deleting without a mode filter empties `get(date)`; deleting a
non-existent `(date, mode)` — or a date with no entries at all — fails
with `NotFoundError`. -/
theorem delete_scoped_by_mode (store : Store) (d : String) :
    (∀ s', storeDelete store d (some .venting) = .ok s' →
      storeGet s' d =
        (storeGet store d).filter (fun e => e.mode == Mode.conversation) ∧
      ∀ d', d' ≠ d → storeGet s' d' = storeGet store d') ∧
    (∀ s', storeDelete store d none = .ok s' → storeGet s' d = []) ∧
    (∀ m : Mode, hasEntryForKey store d m = false →
      storeDelete store d (some m) = .error .notFoundError) ∧
    (hasEntryForDate store d = false →
      storeDelete store d none = .error .notFoundError) := by
  refine ⟨?_, ?_, ?_, ?_⟩
  · intro s' hs'
    unfold storeDelete at hs'
    simp only at hs'
    split_ifs at hs' with h
    injection hs' with hs'
    subst hs'
    constructor
    · unfold storeGet
      rw [List.filter_filter, List.filter_filter]
      refine List.filter_congr (fun e _ => ?_)
      cases hm : e.mode <;> cases hd : e.date == d <;> simp [hm, hd]
    · intro d' hd'
      unfold storeGet
      rw [List.filter_filter]
      refine List.filter_congr (fun e _ => ?_)
      cases hd : e.date == d' <;> simp [hd]
      left
      rw [beq_iff_eq] at hd
      subst hd
      exact fun hc => hd' hc
  · intro s' hs'
    unfold storeDelete at hs'
    simp only at hs'
    split_ifs at hs' with h
    injection hs' with hs'
    subst hs'
    unfold storeGet
    rw [List.filter_filter]
    refine List.filter_eq_nil_iff.mpr (fun e _ => ?_)
    cases hd : e.date == d <;> simp [hd]
  · intro m hm
    unfold storeDelete
    rw [if_neg]
    simpa [hasEntryForKey] using hm
  · intro hd
    unfold storeDelete
    rw [if_neg]
    simpa [hasEntryForDate] using hd

/-- C8 witness: 2024-06-01 holds a venting and a conversation entry;
deleting with `mode = venting` leaves `get` returning exactly the
conversation entry. -/
theorem delete_scoped_by_mode_witness :
    storeGet [⟨"2024-06-01", .conversation, none,
        [⟨.user, "a"⟩, ⟨.ai, "b"⟩]⟩] "2024-06-01" =
      (storeGet [⟨"2024-06-01", .venting, some "ugh", []⟩,
          ⟨"2024-06-01", .conversation, none,
            [⟨.user, "a"⟩, ⟨.ai, "b"⟩]⟩] "2024-06-01").filter
        (fun e => e.mode == Mode.conversation) :=
  ((delete_scoped_by_mode [⟨"2024-06-01", .venting, some "ugh", []⟩,
      ⟨"2024-06-01", .conversation, none, [⟨.user, "a"⟩, ⟨.ai, "b"⟩]⟩]
      "2024-06-01").1 [⟨"2024-06-01", .conversation, none,
        [⟨.user, "a"⟩, ⟨.ai, "b"⟩]⟩] rfl).1

/-! ### Helper lemmas on the run walk -/

theorem runsGo_ne_nil (l : List ℤ) (prev : ℤ) (len : ℕ) :
    runsGo prev len l ≠ [] := by
  induction l generalizing prev len with
  | nil => simp [runsGo]
  | cons d rest ih =>
    unfold runsGo
    split_ifs with h
    · exact ih d (len + 1)
    · simp

theorem getLast?_runsGo (l : List ℤ) (prev : ℤ) (len : ℕ) :
    (runsGo prev len l).getLast? = some (lastRunLen prev len l) := by
  induction l generalizing prev len with
  | nil => simp [runsGo, lastRunLen]
  | cons d rest ih =>
    unfold runsGo lastRunLen
    split_ifs with h
    · exact ih d (len + 1)
    · cases hr : runsGo d 1 rest with
      | nil => exact absurd hr (runsGo_ne_nil rest d 1)
      | cons x xs =>
        have hih := ih d 1
        rw [hr] at hih
        rw [List.getLast?_cons_cons]
        exact hih

theorem le_foldr_max (ns : List ℕ) (n : ℕ) (h : n ∈ ns) :
    n ≤ ns.foldr max 0 := by
  induction ns with
  | nil => cases h
  | cons a t ih =>
    rcases List.mem_cons.mp h with rfl | h'
    · exact le_max_left _ _
    · exact le_trans (ih h') (le_max_right _ _)

theorem mem_of_getLast?_eq {α : Type} (l : List α) (a : α)
    (h : l.getLast? = some a) : a ∈ l := by
  obtain ⟨hne, rfl⟩ :=
    List.mem_getLast?_eq_getLast (l := l) (x := a) (Option.mem_def.mpr h)
  exact List.getLast_mem hne

/-- The final run length computed by the walk is exactly the length of the
consecutive-day run of the date set ending at its most recent date:
given a strictly ascending remainder `rest` above `prev`, a set membership
predicate `S` agreeing with `rest` above `prev`, and an incoming run of
`len` consecutive members ending at `prev`, the walk's result `L`
satisfies: the `L` days ending at the maximum are all members, and the day
just before that run is not. -/
theorem lastRunLen_mem_spec (S : ℤ → Prop) :
    ∀ (rest : List ℤ) (prev : ℤ) (len : ℕ),
      rest.Pairwise (· < ·) →
      (∀ x ∈ rest, prev < x) →
      (∀ x : ℤ, prev < x → (S x ↔ x ∈ rest)) →
      (∀ i : ℕ, i < len → S (prev - i)) →
      ¬ S (prev - len) →
      1 ≤ len →
      1 ≤ lastRunLen prev len rest ∧
      (∀ i : ℕ, i < lastRunLen prev len rest →
        S ((prev :: rest).getLast (List.cons_ne_nil _ _) - i)) ∧
      ¬ S ((prev :: rest).getLast (List.cons_ne_nil _ _) -
            lastRunLen prev len rest) := by
  intro rest
  induction rest with
  | nil =>
    intro prev len _ _ _ hrun hbreak hlen
    refine ⟨?_, ?_, ?_⟩
    · simpa [lastRunLen] using hlen
    · simpa [lastRunLen, List.getLast] using hrun
    · simpa [lastRunLen, List.getLast] using hbreak
  | cons d rest' ih =>
    intro prev len hpw hgt hS hrun hbreak hlen
    have hpd : prev < d := hgt d (List.mem_cons_self d rest')
    have hpw' : rest'.Pairwise (· < ·) := (List.pairwise_cons.mp hpw).2
    have hdgt : ∀ x ∈ rest', d < x := (List.pairwise_cons.mp hpw).1
    have hgl : (prev :: d :: rest').getLast (List.cons_ne_nil _ _) =
        (d :: rest').getLast (List.cons_ne_nil _ _) :=
      List.getLast_cons (List.cons_ne_nil _ _)
    have hS' : ∀ x : ℤ, d < x → (S x ↔ x ∈ rest') := by
      intro x hx
      rw [hS x (lt_trans hpd hx), List.mem_cons]
      constructor
      · rintro (rfl | hm)
        · exact absurd hx (lt_irrefl x)
        · exact hm
      · exact Or.inr
    have hSd : S d := (hS d hpd).mpr (List.mem_cons_self d rest')
    by_cases hcons : d = prev + 1
    · have hrec : lastRunLen prev len (d :: rest') =
          lastRunLen d (len + 1) rest' := by
        simp [lastRunLen, hcons]
      rw [hrec, hgl]
      refine ih d (len + 1) hpw' hdgt hS' ?_ ?_ (by omega)
      · intro i hi
        rcases Nat.eq_zero_or_pos i with rfl | hipos
        · simpa using hSd
        · obtain ⟨j, rfl⟩ : ∃ j, i = j + 1 := ⟨i - 1, by omega⟩
          have hc : d - ((j + 1 : ℕ) : ℤ) = prev - (j : ℕ) := by
            push_cast
            omega
          rw [hc]
          exact hrun j (by omega)
      · have hc : d - ((len + 1 : ℕ) : ℤ) = prev - (len : ℕ) := by
          push_cast
          omega
        rw [hc]
        exact hbreak
    · have hrec : lastRunLen prev len (d :: rest') = lastRunLen d 1 rest' := by
        simp [lastRunLen, hcons]
      rw [hrec, hgl]
      refine ih d 1 hpw' hdgt hS' ?_ ?_ (le_refl 1)
      · intro i hi
        obtain rfl : i = 0 := by omega
        simpa using hSd
      · simp only [Nat.cast_one]
        intro hSd1
        have hlt : prev < d - 1 := by omega
        rcases List.mem_cons.mp ((hS (d - 1) hlt).mp hSd1) with h1 | h2
        · omega
        · have := hdgt _ h2
          omega

/-! ### Projection lemmas for `streakQuery` -/

theorem current_streak_eq (dates : List ℤ) (today : ℤ) (ms : Option ℕ) :
    (streakQuery dates today ms).current_streak =
      match dates.getLast? with
      | none => 0
      | some m =>
        if m = today ∨ m = today - 1
        then ((runLengths dates).getLast?).getD 0 else 0 := rfl

theorem longest_streak_eq (dates : List ℤ) (today : ℤ) (ms : Option ℕ) :
    (streakQuery dates today ms).longest_streak =
      (runLengths dates).foldr max 0 := rfl

theorem total_days_eq (dates : List ℤ) (today : ℤ) (ms : Option ℕ) :
    (streakQuery dates today ms).total_days = dates.length := rfl

theorem milestone_progress_eq (dates : List ℤ) (today : ℤ) (ms : Option ℕ) :
    (streakQuery dates today ms).milestone_progress =
      ms.map (fun msv : ℕ =>
        min (((streakQuery dates today ms).current_streak : ℚ) / (msv : ℚ) *
          100) 100) := by
  cases ms <;> rfl

theorem days_remaining_eq (dates : List ℤ) (today : ℤ) (ms : Option ℕ) :
    (streakQuery dates today ms).days_remaining =
      ms.map (fun msv => msv - (streakQuery dates today ms).current_streak) := by
  cases ms <;> rfl

/-- C2: for every date set (represented by its strictly ascending list of
distinct dates), `current_streak ≤ longest_streak` and `total_days` equals
the cardinality of the date set; the empty date set yields
`current_streak = longest_streak = total_days = 0` and
`has_entry_today = false`. -/
theorem streak_invariant (l : List ℤ) (today : ℤ) (ms : Option ℕ)
    (hs : l.Chain' (· < ·)) :
    (streakQuery l today ms).current_streak ≤
      (streakQuery l today ms).longest_streak ∧
    (streakQuery l today ms).total_days = l.toFinset.card ∧
    (l = [] →
      (streakQuery l today ms).current_streak = 0 ∧
      (streakQuery l today ms).longest_streak = 0 ∧
      (streakQuery l today ms).total_days = 0 ∧
      (streakQuery l today ms).has_entry_today = false) := by
  refine ⟨?_, ?_, ?_⟩
  · rw [current_streak_eq, longest_streak_eq]
    cases l with
    | nil => simp
    | cons head tail =>
      rw [List.getLast?_eq_getLast_of_ne_nil (List.cons_ne_nil _ _)]
      simp only
      split_ifs with h
      · rw [show runLengths (head :: tail) = runsGo head 1 tail from rfl,
          getLast?_runsGo]
        simp only [Option.getD_some]
        exact le_foldr_max _ _
          (mem_of_getLast?_eq _ _ (getLast?_runsGo tail head 1))
      · exact Nat.zero_le _
  · rw [total_days_eq]
    have hnd : l.Nodup := (List.chain'_iff_pairwise.mp hs).imp ne_of_lt
    exact (List.toFinset_card_of_nodup hnd).symm
  · rintro rfl
    exact ⟨rfl, rfl, rfl, rfl⟩

/-- C2 witness: the date set {2, 3, 5} with today 5 satisfies the streak
invariant. -/
theorem streak_invariant_witness :
    (streakQuery [2, 3, 5] 5 none).current_streak ≤
      (streakQuery [2, 3, 5] 5 none).longest_streak ∧
    (streakQuery [2, 3, 5] 5 none).total_days =
      ([2, 3, 5] : List ℤ).toFinset.card :=
  ⟨(streak_invariant [2, 3, 5] 5 none (by norm_num [List.chain'_cons])).1,
   (streak_invariant [2, 3, 5] 5 none (by norm_num [List.chain'_cons])).2.1⟩

/-- C3: for a non-empty date set whose most recent date is today or
yesterday, `current_streak` is exactly the length of the consecutive-day
run ending at that most recent date (it is positive, the `current_streak`
days ending at the most recent date are all in the set, and the day just
before that run is not); when the most recent date is older than
yesterday, `current_streak = 0`. -/
theorem grace_period_law (l : List ℤ) (today : ℤ) (ms : Option ℕ)
    (hne : l ≠ []) (hs : l.Chain' (· < ·)) :
    ((l.getLast hne = today ∨ l.getLast hne = today - 1) →
      1 ≤ (streakQuery l today ms).current_streak ∧
      (∀ i : ℕ, i < (streakQuery l today ms).current_streak →
        l.getLast hne - i ∈ l) ∧
      l.getLast hne - (streakQuery l today ms).current_streak ∉ l) ∧
    (l.getLast hne < today - 1 →
      (streakQuery l today ms).current_streak = 0) := by
  have hpw := List.chain'_iff_pairwise.mp hs
  have hcur : (streakQuery l today ms).current_streak =
      if l.getLast hne = today ∨ l.getLast hne = today - 1
      then ((runLengths l).getLast?).getD 0 else 0 := by
    rw [current_streak_eq, List.getLast?_eq_getLast_of_ne_nil hne]
  constructor
  · intro hrecent
    rw [hcur, if_pos hrecent]
    obtain ⟨head, tail, rfl⟩ : ∃ h t, l = h :: t := by
      cases l with
      | nil => exact absurd rfl hne
      | cons h t => exact ⟨h, t, rfl⟩
    rw [show runLengths (head :: tail) = runsGo head 1 tail from rfl,
      getLast?_runsGo]
    simp only [Option.getD_some]
    have hgt : ∀ x ∈ tail, head < x := (List.pairwise_cons.mp hpw).1
    have hpw' : tail.Pairwise (· < ·) := (List.pairwise_cons.mp hpw).2
    have h1 : ∀ x : ℤ, head < x → (x ∈ head :: tail ↔ x ∈ tail) := by
      intro x hx
      rw [List.mem_cons]
      constructor
      · rintro (rfl | hm)
        · exact absurd hx (lt_irrefl x)
        · exact hm
      · exact Or.inr
    have h2 : ∀ i : ℕ, i < 1 → (head - (i : ℕ) : ℤ) ∈ head :: tail := by
      intro i hi
      obtain rfl : i = 0 := by omega
      simp
    have h3 : (head - ((1 : ℕ) : ℤ)) ∉ head :: tail := by
      simp only [Nat.cast_one]
      intro hm
      rcases List.mem_cons.mp hm with h' | h'
      · omega
      · have := hgt _ h'
        omega
    exact lastRunLen_mem_spec (· ∈ head :: tail) tail head 1 hpw' hgt h1 h2
      h3 (le_refl 1)
  · intro hold
    rw [hcur, if_neg (by omega)]

/-- C3 witness: entries on days 0, 2, 3 with today 4 — the most recent
date 3 is yesterday, and the streak has exactly the run {2, 3} ending
there. -/
theorem grace_period_law_witness :
    (streakQuery [0, 2, 3] 4 none).current_streak = 2 ∧
    1 ≤ (streakQuery [0, 2, 3] 4 none).current_streak := by
  have h := (grace_period_law [0, 2, 3] 4 none (by decide) (by norm_num [List.chain'_cons])).1
    (by decide)
  exact ⟨by decide, h.1⟩

/-- C4: with a milestone `m > 0` set, `milestone_progress` equals
`min(current_streak / m * 100, 100)` — monotonically non-decreasing in
`current_streak` and capped at 100 — and `days_remaining` equals
`max(m - current_streak, 0)`; with no milestone set, both fields are
null. -/
theorem milestone_law (l l' : List ℤ) (today today' : ℤ) (m : ℕ)
    (hm : 0 < m) :
    ((streakQuery l today (some m)).milestone_progress =
      some (min
        (((streakQuery l today (some m)).current_streak : ℚ) / m * 100)
        100)) ∧
    (∀ p : ℚ,
      (streakQuery l today (some m)).milestone_progress = some p →
        p ≤ 100) ∧
    ((streakQuery l today (some m)).current_streak ≤
        (streakQuery l' today' (some m)).current_streak →
      ∀ p q : ℚ,
        (streakQuery l today (some m)).milestone_progress = some p →
        (streakQuery l' today' (some m)).milestone_progress = some q →
        p ≤ q) ∧
    ((streakQuery l today (some m)).days_remaining =
      some (m - (streakQuery l today (some m)).current_streak)) ∧
    (((m - (streakQuery l today (some m)).current_streak : ℕ) : ℤ) =
      max ((m : ℤ) - ((streakQuery l today (some m)).current_streak : ℤ))
        0) ∧
    ((streakQuery l today none).milestone_progress = none ∧
      (streakQuery l today none).days_remaining = none) := by
  have hmQ : (0 : ℚ) < m := by exact_mod_cast hm
  refine ⟨?_, ?_, ?_, ?_, ?_, ?_, ?_⟩
  · rw [milestone_progress_eq]
    rfl
  · intro p hp
    rw [milestone_progress_eq] at hp
    simp only [Option.map_some', Option.some.injEq] at hp
    exact hp ▸ min_le_right _ _
  · intro hcc p q hp hq
    rw [milestone_progress_eq] at hp hq
    simp only [Option.map_some', Option.some.injEq] at hp hq
    subst hp
    subst hq
    refine min_le_min ?_ le_rfl
    refine mul_le_mul_of_nonneg_right ?_ (by norm_num)
    exact (div_le_div_iff_of_pos_right hmQ).mpr (Nat.cast_le.mpr hcc)
  · rw [days_remaining_eq]
    rfl
  · rcases le_or_lt (streakQuery l today (some m)).current_streak m with
      hle | hlt
    · rw [Nat.cast_sub hle, max_eq_left (by
        have : ((streakQuery l today (some m)).current_streak : ℤ) ≤ m := by
          exact_mod_cast hle
        omega)]
    · rw [Nat.sub_eq_zero_of_le (le_of_lt hlt), max_eq_right (by
        have : (m : ℤ) ≤ ((streakQuery l today (some m)).current_streak : ℤ) := by
          exact_mod_cast le_of_lt hlt
        omega)]
      rfl
  · rw [milestone_progress_eq]
    rfl
  · rw [days_remaining_eq]
    rfl

/-- C4 witness: the spec scenario — entries on three consecutive days,
today the third, milestone 5 — yields `milestone_progress = 60` and
`days_remaining = 2`. -/
theorem milestone_law_witness :
    (streakQuery [0, 1, 2] 2 (some 5)).milestone_progress =
      some (min
        (((streakQuery [0, 1, 2] 2 (some 5)).current_streak : ℚ) / 5 * 100)
        100) ∧
    (streakQuery [0, 1, 2] 2 (some 5)).days_remaining =
      some (5 - (streakQuery [0, 1, 2] 2 (some 5)).current_streak) ∧
    (streakQuery [0, 1, 2] 2 (some 5)).milestone_progress = some 60 ∧
    (streakQuery [0, 1, 2] 2 (some 5)).days_remaining = some 2 :=
  ⟨(milestone_law [0, 1, 2] [0, 1, 2] 2 2 5 (by decide)).1,
   (milestone_law [0, 1, 2] [0, 1, 2] 2 2 5 (by decide)).2.2.2.1,
   by norm_num [milestone_progress_eq, current_streak_eq, runLengths, runsGo],
   by norm_num [days_remaining_eq, current_streak_eq, runLengths, runsGo]⟩

/-- C5 counterexample: a June 2024 entry with no sentiment attribute is
counted in the month bucket's total (it is a month entry), yet appears in
**no** sentiment tally of `getMonthInsights` — in particular it is not
tallied as neutral, contrary to the claim that every aggregator counts a
missing-sentiment entry in any sentiment tally. -/
theorem missing_sentiment_tally_counterexample :
    (monthEntries [⟨some "2024-06-01", none, none⟩] 5 2024).length = 1 ∧
    sentimentCounts (monthEntries [⟨some "2024-06-01", none, none⟩] 5 2024)
      .neutral = 0 ∧
    sentimentCounts (monthEntries [⟨some "2024-06-01", none, none⟩] 5 2024)
      .positive = 0 ∧
    sentimentCounts (monthEntries [⟨some "2024-06-01", none, none⟩] 5 2024)
      .negative = 0 ∧
    sentimentCounts (monthEntries [⟨some "2024-06-01", none, none⟩] 5 2024)
      .neutral ≠
      (monthEntries [⟨some "2024-06-01", none, none⟩] 5 2024).length := by
  refine ⟨by decide, by decide, by decide, by decide, by decide⟩

/-- C5 amended: a missing sentiment contributes the neutral score 0 to the
trend aggregator's `averageSentiment` numerator while still counting
toward the bucket's `total` (denominator); the calendar month-insights
sentiment tally, however, skips entries whose sentiment is absent — the
entry joins the month bucket but is counted in no tally.  The reported
month sentiment is therefore unchanged whenever the month already had an
entry; for a previously empty month, the sole sentiment-less entry flips
the report from the early-return `neutral` to `positive` (the all-zero
tally tie-break). -/
theorem missing_sentiment_neutral_amended (u : String)
    (es : List (String × Option Sentiment)) (entries : List CalEntry)
    (e : CalEntry) (mi y : ℕ) (hmiss : e.sentiment = none)
    (hin : inMonth e mi y = true) :
    sentimentScore none = 0 ∧
    trendBuckets [u] ((u, none) :: es) =
      [⟨u, (es.filter (fun x => x.1 = u)).length + 1,
        ((es.filter (fun x => x.1 = u)).map
            (fun x => (sentimentScore x.2 : ℚ))).sum /
          (((es.filter (fun x => x.1 = u)).length : ℚ) + 1)⟩] ∧
    monthEntries (e :: entries) mi y = e :: monthEntries entries mi y ∧
    (∀ s : Sentiment, sentimentCounts (monthEntries (e :: entries) mi y) s =
      sentimentCounts (monthEntries entries mi y) s) ∧
    (monthEntries entries mi y ≠ [] →
      getMonthInsightsSentiment (e :: entries) mi y =
        getMonthInsightsSentiment entries mi y) ∧
    (monthEntries entries mi y = [] →
      getMonthInsightsSentiment entries mi y = .neutral ∧
      getMonthInsightsSentiment (e :: entries) mi y = .positive) := by
  have hstep : monthEntries (e :: entries) mi y =
      e :: monthEntries entries mi y := by
    simp [monthEntries, List.filter_cons, hin]
  have hc : ∀ s : Sentiment,
      sentimentCounts (e :: monthEntries entries mi y) s =
        sentimentCounts (monthEntries entries mi y) s := by
    intro s
    simp [sentimentCounts, hmiss]
  refine ⟨rfl, ?_, hstep, ?_, ?_, ?_⟩
  · simp only [trendBuckets, List.map_cons, List.map_nil, List.filter_cons]
    norm_num [sentimentScore]
  · intro s
    rw [hstep]
    exact hc s
  · intro hne
    unfold getMonthInsightsSentiment
    rw [hstep, if_neg (by simp),
      if_neg (by simpa [List.length_eq_zero] using hne)]
    unfold dominantSentiment
    simp only [hc]
  · intro hemp
    refine ⟨?_, ?_⟩
    · unfold getMonthInsightsSentiment
      rw [if_pos (by simp [hemp])]
    · unfold getMonthInsightsSentiment
      rw [hstep, hemp, if_neg (by simp)]
      unfold dominantSentiment
      simp [sentimentCounts, hmiss]

/-- C5 amended witness: a June 2024 month holding one negative entry — a
sentiment-less entry joins the month bucket, leaves every tally and the
reported month sentiment unchanged; over an empty month the same entry
flips the report from neutral to positive. -/
theorem missing_sentiment_neutral_amended_witness :
    (∀ s : Sentiment,
      sentimentCounts
          (monthEntries (⟨some "2024-06-02", none, none⟩ ::
            [⟨some "2024-06-01", some .negative, none⟩]) 5 2024) s =
        sentimentCounts
          (monthEntries [⟨some "2024-06-01", some .negative, none⟩] 5 2024)
          s) ∧
    getMonthInsightsSentiment
        (⟨some "2024-06-02", none, none⟩ ::
          [⟨some "2024-06-01", some .negative, none⟩]) 5 2024 =
      getMonthInsightsSentiment [⟨some "2024-06-01", some .negative, none⟩]
        5 2024 ∧
    getMonthInsightsSentiment ([] : List CalEntry) 5 2024 = .neutral ∧
    getMonthInsightsSentiment [⟨some "2024-06-02", none, none⟩] 5 2024 =
      .positive :=
  ⟨(missing_sentiment_neutral_amended "2024-06-01"
      [("2024-06-01", some .negative)]
      [⟨some "2024-06-01", some .negative, none⟩]
      ⟨some "2024-06-02", none, none⟩ 5 2024 rfl (by decide)).2.2.2.1,
   (missing_sentiment_neutral_amended "2024-06-01"
      [("2024-06-01", some .negative)]
      [⟨some "2024-06-01", some .negative, none⟩]
      ⟨some "2024-06-02", none, none⟩ 5 2024 rfl (by decide)).2.2.2.2.1
     (by decide),
   ((missing_sentiment_neutral_amended "2024-06-01"
      [("2024-06-01", some .negative)] []
      ⟨some "2024-06-02", none, none⟩ 5 2024 rfl (by decide)).2.2.2.2.2
     (by decide)).1,
   ((missing_sentiment_neutral_amended "2024-06-01"
      [("2024-06-01", some .negative)] []
      ⟨some "2024-06-02", none, none⟩ 5 2024 rfl (by decide)).2.2.2.2.2
     (by decide)).2⟩

end PaperTrail
